import Mathlib

/-!
Shallow embedding of the pablaber/elo MySportsFeeds API client.

Source files embedded here:
- src/lib/my-sports-feeds-api/api-base.js : the current ApiBase class
  (base URL version v2.1, operations seasonGames, dailyGames,
  seasonalPlayerGamelogs) and the private helper generateAuthHeader.
- src/lib/my-sports-feeds-api/mlb-api.js : the MlbApi subclass, and an
  older ApiBase class (base URL version v1.2, operations fullGameSchedule
  and dailyGameSchedule) appended after it in the same file.

JavaScript values that flow through the client (option values, the
superagent response) are modelled by the inductive type Value; option
objects are association lists of string keys to Values; the HTTP
transport is a parameter (Transport) that either yields a response or
rejects with an error message, standing for the awaited superagent call;
the current date used by moment().format is a Today parameter.
-/

namespace Elo

/-- Model of the JavaScript values the client manipulates: undefined or
missing values, strings, numbers, and the superagent response object
(a status together with the parsed body, which is itself a Value). -/
inductive Value where
  | vnull
  | vstr (s : String)
  | vnum (n : Int)
  | vres (status : Nat) (body : Value)
deriving DecidableEq, Repr

/-- Model of a JavaScript options object: an association list from keys
to values, first binding wins, as fields of a JS object. -/
abbrev Options := List (String × Value)

/-- Property read on an object: the value at the key, or vnull (standing
for undefined) when the key is absent. -/
def objGet : Options → String → Value
  | [], _ => .vnull
  | (k₀, v) :: rest, k => if k₀ == k then v else objGet rest k

/-- Whether the object has the key at all. -/
def hasKey : Options → String → Bool
  | [], _ => false
  | (k₀, _) :: rest, k => k₀ == k || hasKey rest k

/-- Model of the JS delete operator on an object key: all bindings of
the key are removed, the rest of the object is untouched. -/
def objDelete : Options → String → Options
  | [], _ => []
  | (k₀, v) :: rest, k =>
      if k₀ == k then objDelete rest k else (k₀, v) :: objDelete rest k

/-- JS truthiness of a Value, as used by the || operator in the source:
undefined, the empty string and zero are falsy. -/
def truthy : Value → Bool
  | .vnull => false
  | .vstr s => s != ""
  | .vnum n => n != 0
  | .vres _ _ => true

/-- Model of the JS expression a || b. -/
def jsOr (a b : Value) : Value :=
  if truthy a then a else b

/-- Model of JS template-literal string interpolation of a Value. -/
def jsToString : Value → String
  | .vnull => "undefined"
  | .vstr s => s
  | .vnum n => toString n
  | .vres _ _ => "[object Object]"

/-- The body property of a superagent response, as read by res.body in
the source; vnull when the value is not a response object. -/
def resBody : Value → Value
  | .vres _ b => b
  | _ => .vnull

/-- UTF-8 encoding of one character as a list of byte values, as used by
the Node Buffer constructor on a string. -/
def utf8Bytes (c : Char) : List Nat :=
  let n := c.toNat
  if n < 128 then [n]
  else if n < 2048 then [192 + n / 64, 128 + n % 64]
  else if n < 65536 then [224 + n / 4096, 128 + (n / 64) % 64, 128 + n % 64]
  else [240 + n / 262144, 128 + (n / 4096) % 64, 128 + (n / 64) % 64, 128 + n % 64]

/-- UTF-8 byte sequence of a string. -/
def strBytes (s : String) : List Nat :=
  (s.toList.map utf8Bytes).flatten

/-- The standard base64 alphabet used by Buffer.toString with the base64
encoding argument. -/
def base64Table : List Char :=
  "ABCDEFGHIJKLMNOPQRSTUVWXYZabcdefghijklmnopqrstuvwxyz0123456789+/".toList

/-- The base64 digit for a 6-bit group. -/
def b64char (n : Nat) : Char :=
  base64Table.getD n 'A'

/-- Base64 encoding of a byte sequence, with = padding, as produced by
Buffer.toString with the base64 encoding argument. -/
def base64Encode : List Nat → String
  | [] => ""
  | [a] =>
      String.mk [b64char (a / 4), b64char ((a % 4) * 16), '=', '=']
  | [a, b] =>
      String.mk [b64char (a / 4), b64char ((a % 4) * 16 + b / 16),
                 b64char ((b % 16) * 4), '=']
  | a :: b :: c :: rest =>
      String.mk [b64char (a / 4), b64char ((a % 4) * 16 + b / 16),
                 b64char ((b % 16) * 4 + c / 64), b64char (c % 64)]
        ++ base64Encode rest

/-- Embedding of generateAuthHeader (api-base.js lines 162 to 167, and
identically mlb-api.js lines 139 to 144): base64 of key colon password,
prefixed with the word Basic and a space. -/
def generateAuthHeader (apiKey password : String) : String :=
  let basicAuthString := apiKey ++ ":" ++ password
  "Basic " ++ base64Encode (strBytes basicAuthString)

/-- Characters left unescaped by the Node querystring escape function:
ASCII alphanumerics and - _ . ! ~ * ( ) and the apostrophe. -/
def qsUnescapedChar (c : Char) : Bool :=
  c.isAlphanum || c == '-' || c == '_' || c == '.' || c == '!' || c == '~'
    || c == '*' || c == '(' || c == ')' || c == Char.ofNat 39

/-- Uppercase hexadecimal digits. -/
def hexDigitsUpper : List Char := "0123456789ABCDEF".toList

/-- Percent-encoding of one byte value. -/
def byteHex (b : Nat) : String :=
  String.mk ['%', hexDigitsUpper.getD (b / 16) 'X', hexDigitsUpper.getD (b % 16) 'X']

/-- Model of the Node querystring escape function: percent-encodes the
UTF-8 bytes of every character outside the unescaped set. -/
def qsEscape (s : String) : String :=
  s.toList.foldl
    (fun acc c =>
      if qsUnescapedChar c then acc.push c
      else acc ++ String.join ((utf8Bytes c).map byteHex))
    ""

/-- Coercion of a Value to the string serialized by querystring.stringify:
strings as themselves, numbers printed, everything else empty. -/
def qsValueString : Value → String
  | .vstr s => s
  | .vnum n => toString n
  | _ => ""

/-- Model of querystring.stringify on an options object: key=value pairs
joined with ampersands, keys and values escaped. -/
def qsStringify (o : Options) : String :=
  String.intercalate "&"
    (o.map (fun kv => qsEscape kv.1 ++ "=" ++ qsEscape (qsValueString kv.2)))

/-- An outbound HTTP request as assembled by the client: method, URL and
header list. -/
structure Request where
  method : String
  url : String
  headers : List (String × String)
deriving DecidableEq, Repr

/-- First header with the given name, as an HTTP header lookup. -/
def headerLookup : List (String × String) → String → Option String
  | [], _ => none
  | (k₀, v) :: rest, k => if k₀ == k then some v else headerLookup rest k

/-- The state of a constructed client: the precomputed Authorization
header, the base URL and the league path segment. -/
structure Client where
  authHeader : String
  baseUrl : String
  leaguePath : String
deriving DecidableEq, Repr

/-- Embedding of the private apiUrl method (api-base.js lines 55 to 57
and mlb-api.js lines 74 to 76): base URL, then league path, then path. -/
def apiUrl (c : Client) (path : String) : String :=
  c.baseUrl ++ c.leaguePath ++ path

/-- Embedding of the private buildRequest method (api-base.js lines 43
to 46): a request with the given method and URL carrying the stored
Authorization header. -/
def buildRequest (c : Client) (method url : String) : Request :=
  { method := method, url := url
    headers := [("Authorization", c.authHeader)] }

/-- The behaviour of the awaited HTTP transport for one request: either
a response Value or a rejection with an error message. -/
inductive Transport where
  | ok (res : Value)
  | err (msg : String)
deriving DecidableEq, Repr

/-- What one call of a request operation did: either it threw a
parameter precondition error before building any request, or it issued
the request and finished with a result (none models the null returned
after a caught transport error) and a list of stderr log lines. -/
inductive Outcome where
  | paramError (msg : String)
  | requested (req : Request) (result : Option Value) (stderrLog : List String)
deriving DecidableEq, Repr

/-- The full observable effect of one operation call: the options object
as the caller sees it afterwards (the source deletes keys from it), and
the outcome. -/
structure OpRun where
  optionsAfter : Options
  outcome : Outcome
deriving DecidableEq, Repr

/-- The shared request phase of the current ApiBase operations
(api-base.js lines 79 to 86, 109 to 117, 140 to 148): build the GET
request via buildRequest and apiUrl, await the transport; on rejection
log the error to stderr and return null, on success return res.body. -/
def runRequest (c : Client) (path : String) (opts : Options) (t : Transport) : OpRun :=
  let req := buildRequest c "GET" (apiUrl c path)
  match t with
  | .err e => ⟨opts, .requested req none [e]⟩
  | .ok res => ⟨opts, .requested req (some (resBody res)) []⟩

/-- The request phase of the older ApiBase operations (mlb-api.js lines
91 to 100 and 116 to 125): identical, except that on success the whole
response object res is returned, not res.body. -/
def oldRunRequest (c : Client) (path : String) (opts : Options) (t : Transport) : OpRun :=
  let req := buildRequest c "GET" (apiUrl c path)
  match t with
  | .err e => ⟨opts, .requested req none [e]⟩
  | .ok res => ⟨opts, .requested req (some res) []⟩

/-- The current date, standing for the moment() clock. -/
structure Today where
  year : Nat
  month : Nat
  day : Nat
deriving DecidableEq, Repr

/-- Two-digit zero padding, as the moment MM and DD format tokens. -/
def pad2 (n : Nat) : String :=
  if n < 10 then "0" ++ toString n else toString n

/-- Four-digit zero padding, as the moment YYYY format token. -/
def pad4 (n : Nat) : String :=
  if n < 10 then "000" ++ toString n
  else if n < 100 then "00" ++ toString n
  else if n < 1000 then "0" ++ toString n
  else toString n

/-- Embedding of moment().format with the YYYYMMDD pattern. -/
def momentFormatYYYYMMDD (t : Today) : String :=
  pad4 t.year ++ pad2 t.month ++ pad2 t.day

/-- The constructor options object: the apiKey and password properties,
each an arbitrary JS value (vnull when absent). -/
structure CtorOptions where
  apiKey : Value
  password : Value
deriving DecidableEq, Repr

/-- Embedding of precond.checkIsString with an explicit message: returns
the string, or throws (errors) when the value is not a string. -/
def checkIsStringMsg (msg : String) : Value → Except String String
  | .vstr s => .ok s
  | _ => .error msg

/-- Embedding of precond.checkIsString with its default message. -/
def checkIsString : Value → Except String String :=
  checkIsStringMsg "precond.checkIsString: expected a string"

/-- Whether a Value is a JS string. -/
def isStringValue : Value → Bool
  | .vstr _ => true
  | _ => false

namespace ApiBase

/-- Embedding of the current ApiBase constructor (api-base.js lines 25
to 32): check both credentials are strings (throwing otherwise), then
store the generated auth header, the v2.1 base URL and an empty league
path. No transport is involved. -/
def new (options : CtorOptions) : Except String Client :=
  match checkIsString options.apiKey with
  | .error e => .error e
  | .ok apiKey =>
    match checkIsString options.password with
    | .error e => .error e
    | .ok password =>
      .ok { authHeader := generateAuthHeader apiKey password
            baseUrl := "https://api.mysportsfeeds.com/v2.1/pull"
            leaguePath := "" }

end ApiBase

/-- Path construction of seasonGames (api-base.js lines 69 to 78):
default the seasonName option to current, delete it from the options,
and append the remaining options as a query string when any are left.
Returns the mutated options and the path. -/
def seasonGamesPath (options : Options) : Options × String :=
  let seasonName := jsOr (objGet options "seasonName") (.vstr "current")
  let options := objDelete options "seasonName"
  let path := "/" ++ jsToString seasonName ++ "/games.json"
  let path := if options.isEmpty then path else path ++ "?" ++ qsStringify options
  (options, path)

/-- Embedding of ApiBase.seasonGames (api-base.js lines 69 to 87). -/
def seasonGames (c : Client) (options : Options) (t : Transport) : OpRun :=
  let p := seasonGamesPath options
  runRequest c p.2 p.1 t

/-- Path construction of dailyGames (api-base.js lines 98 to 108):
default the season option to current and the date option to the current
date in YYYYMMDD format, delete both from the options, and append the
remaining options as a query string when any are left. -/
def dailyGamesPath (today : Today) (options : Options) : Options × String :=
  let season := jsOr (objGet options "season") (.vstr "current")
  let options := objDelete options "season"
  let date := jsOr (objGet options "date") (.vstr (momentFormatYYYYMMDD today))
  let options := objDelete options "date"
  let path := "/" ++ jsToString season ++ "/date/" ++ jsToString date ++ "/games.json"
  let path := if options.isEmpty then path else path ++ "?" ++ qsStringify options
  (options, path)

/-- Embedding of ApiBase.dailyGames (api-base.js lines 98 to 118). -/
def dailyGames (c : Client) (today : Today) (options : Options) (t : Transport) : OpRun :=
  let p := dailyGamesPath today options
  runRequest c p.2 p.1 t

/-- Path construction of seasonalPlayerGamelogs (api-base.js lines 130
to 140): default the season option to current and delete it, then check
that the game option is a string (throwing a parameter error otherwise),
and append the remaining options as a query string when any are left. -/
def seasonalPlayerGamelogsPath (options : Options) : Options × Except String String :=
  let season := jsOr (objGet options "season") (.vstr "current")
  let options := objDelete options "season"
  match checkIsStringMsg "\"options.game\" is a required parameter" (objGet options "game") with
  | .error e => (options, .error e)
  | .ok _ =>
    let path := "/" ++ jsToString season ++ "/player_gamelogs.json"
    let path := if options.isEmpty then path else path ++ "?" ++ qsStringify options
    (options, .ok path)

/-- Embedding of ApiBase.seasonalPlayerGamelogs (api-base.js lines 130
to 149). -/
def seasonalPlayerGamelogs (c : Client) (options : Options) (t : Transport) : OpRun :=
  let p := seasonalPlayerGamelogsPath options
  match p.2 with
  | .error e => ⟨p.1, .paramError e⟩
  | .ok path => runRequest c path p.1 t

/-- Replacing the league path of a client, as the MlbApi constructor
body does after calling super. -/
def setLeague (c : Client) (l : String) : Client :=
  { c with leaguePath := l }

namespace MlbApi

/-- Embedding of the MlbApi constructor (mlb-api.js lines 16 to 20):
the ApiBase constructor, then the league path is set to /mlb. -/
def new (options : CtorOptions) : Except String Client :=
  (ApiBase.new options).map (fun c => setLeague c "/mlb")

end MlbApi

namespace OldApiBase

/-- Embedding of the older ApiBase constructor (mlb-api.js lines 46 to
53): as the current one but with the v1.2 base URL. -/
def new (options : CtorOptions) : Except String Client :=
  match checkIsString options.apiKey with
  | .error e => .error e
  | .ok apiKey =>
    match checkIsString options.password with
    | .error e => .error e
    | .ok password =>
      .ok { authHeader := generateAuthHeader apiKey password
            baseUrl := "https://api.mysportsfeeds.com/v1.2/pull"
            leaguePath := "" }

end OldApiBase

/-- Path construction of the older fullGameSchedule (mlb-api.js lines
88 to 90): seasonName defaulted to current, no deletion, no query
string, leading slash present. -/
def fullGameSchedulePath (options : Options) : String :=
  let seasonName := jsOr (objGet options "seasonName") (.vstr "current")
  "/" ++ jsToString seasonName ++ "/full_game_schedule.json"

/-- Embedding of the older ApiBase.fullGameSchedule (mlb-api.js lines
88 to 101): on success the whole response object is returned. -/
def fullGameSchedule (c : Client) (options : Options) (t : Transport) : OpRun :=
  oldRunRequest c (fullGameSchedulePath options) options t

/-- Path construction of the older dailyGameSchedule (mlb-api.js lines
112 to 115): seasonName defaulted to current, forDate defaulted to the
current date in YYYYMMDD format; the template literal in the source
starts with the season directly, with no leading slash. -/
def dailyGameSchedulePath (today : Today) (options : Options) : String :=
  let seasonName := jsOr (objGet options "seasonName") (.vstr "current")
  let forDate := jsOr (objGet options "forDate") (.vstr (momentFormatYYYYMMDD today))
  jsToString seasonName ++ "/daily_game_schedule.json?forDate=" ++ jsToString forDate

/-- Embedding of the older ApiBase.dailyGameSchedule (mlb-api.js lines
112 to 126): on success the whole response object is returned. -/
def dailyGameSchedule (c : Client) (today : Today) (options : Options) (t : Transport) : OpRun :=
  oldRunRequest c (dailyGameSchedulePath today options) options t

/-- The request URL of a run, when one was issued. -/
def urlOf (r : OpRun) : Option String :=
  match r.outcome with
  | .requested req _ _ => some req.url
  | .paramError _ => none

/-- The returned value of a run, when the request phase was reached:
some none models a returned null, some (some v) a returned value, and
none a thrown parameter error. -/
def resultOf (r : OpRun) : Option (Option Value) :=
  match r.outcome with
  | .requested _ res _ => some res
  | .paramError _ => none

/-- The stderr log lines of a run, when the request phase was reached. -/
def stderrOf (r : OpRun) : Option (List String) :=
  match r.outcome with
  | .requested _ _ log => some log
  | .paramError _ => none

/-- Replacing the request URL inside a run that issued a request;
identity on a parameter error. -/
def setRunUrl (r : OpRun) (u : String) : OpRun :=
  match r.outcome with
  | .paramError _ => r
  | .requested req res log =>
    ⟨r.optionsAfter, .requested { req with url := u } res log⟩

/-- The request method of a run, when a request was issued. -/
def methodOf (r : OpRun) : Option String :=
  match r.outcome with
  | .requested req _ _ => some req.method
  | .paramError _ => none

/-- The first character of a string, used to state whether a path
begins with a slash. -/
def headCharOf (s : String) : Option Char :=
  s.toList.head?

/-- A concrete client of the older ApiBase, as built from the string
credentials k and p. -/
def oldDemoClient : Client :=
  { authHeader := generateAuthHeader "k" "p"
    baseUrl := "https://api.mysportsfeeds.com/v1.2/pull"
    leaguePath := "" }

/-- A concrete client of the older ApiBase carrying the /mlb league
path, as the MLB entry points of the repository use it. -/
def mlbOldDemoClient : Client :=
  { authHeader := generateAuthHeader "k" "p"
    baseUrl := "https://api.mysportsfeeds.com/v1.2/pull"
    leaguePath := "/mlb" }

/-- A concrete client of the current ApiBase, as built from the string
credentials key and pass. -/
def apiDemoClient : Client :=
  { authHeader := generateAuthHeader "key" "pass"
    baseUrl := "https://api.mysportsfeeds.com/v2.1/pull"
    leaguePath := "" }

/-! Shared lemmas about the object operations and the request phase. -/

theorem objGet_of_hasKey_false {o : Options} {k : String} (h : hasKey o k = false) :
    objGet o k = .vnull := by
  induction o with
  | nil => rfl
  | cons kv rest ih =>
    obtain ⟨k₀, v⟩ := kv
    simp only [hasKey, Bool.or_eq_false_iff] at h
    simp only [objGet, h.1, Bool.false_eq_true, if_false]
    exact ih h.2

theorem objGet_objDelete_ne (o : Options) {k k' : String} (h : k' ≠ k) :
    objGet (objDelete o k) k' = objGet o k' := by
  induction o with
  | nil => rfl
  | cons kv rest ih =>
    obtain ⟨k₀, v⟩ := kv
    have hkk' : k ≠ k' := fun e => h e.symm
    by_cases hk : k₀ = k
    · have hne : (k₀ == k') = false := by
        simp [hk]
        exact fun heq => h heq.symm
      simp [objDelete, hk, objGet, hne, ih, hkk']
    · by_cases hk' : k₀ = k'
      · simp [objDelete, hk, objGet, hk', h]
      · simp [objDelete, hk, objGet, hk', ih]

theorem hasKey_objDelete_self (o : Options) (k : String) :
    hasKey (objDelete o k) k = false := by
  induction o with
  | nil => rfl
  | cons kv rest ih =>
    obtain ⟨k₀, v⟩ := kv
    by_cases hk : k₀ = k
    · simpa [objDelete, hk] using ih
    · simpa [objDelete, hk, hasKey] using ih

theorem hasKey_objDelete_ne (o : Options) {k k' : String} (h : k' ≠ k) :
    hasKey (objDelete o k) k' = hasKey o k' := by
  induction o with
  | nil => rfl
  | cons kv rest ih =>
    obtain ⟨k₀, v⟩ := kv
    have hkk' : k ≠ k' := fun e => h e.symm
    by_cases hk : k₀ = k
    · have hne : (k₀ == k') = false := by
        simp [hk]
        exact fun heq => h heq.symm
      simp [objDelete, hk, hasKey, hne, ih, hkk']
    · simp [objDelete, hk, hasKey, ih]

theorem runRequest_optionsAfter (c : Client) (path : String) (opts : Options)
    (t : Transport) : (runRequest c path opts t).optionsAfter = opts := by
  cases t <;> rfl

theorem oldRunRequest_optionsAfter (c : Client) (path : String) (opts : Options)
    (t : Transport) : (oldRunRequest c path opts t).optionsAfter = opts := by
  cases t <;> rfl

theorem runRequest_urlOf (c : Client) (path : String) (opts : Options)
    (t : Transport) : urlOf (runRequest c path opts t) = some (apiUrl c path) := by
  cases t <;> rfl

theorem oldRunRequest_urlOf (c : Client) (path : String) (opts : Options)
    (t : Transport) : urlOf (oldRunRequest c path opts t) = some (apiUrl c path) := by
  cases t <;> rfl

theorem runRequest_methodOf (c : Client) (path : String) (opts : Options)
    (t : Transport) : methodOf (runRequest c path opts t) = some "GET" := by
  cases t <;> rfl

theorem oldRunRequest_methodOf (c : Client) (path : String) (opts : Options)
    (t : Transport) : methodOf (oldRunRequest c path opts t) = some "GET" := by
  cases t <;> rfl

theorem runRequest_headers (c : Client) (path : String) (opts : Options)
    (t : Transport) (req : Request) (res : Option Value) (log : List String)
    (h : (runRequest c path opts t).outcome = .requested req res log) :
    req.headers = [("Authorization", c.authHeader)] := by
  cases t <;> simp only [runRequest, Outcome.requested.injEq] at h <;>
    exact h.1 ▸ rfl

theorem oldRunRequest_headers (c : Client) (path : String) (opts : Options)
    (t : Transport) (req : Request) (res : Option Value) (log : List String)
    (h : (oldRunRequest c path opts t).outcome = .requested req res log) :
    req.headers = [("Authorization", c.authHeader)] := by
  cases t <;> simp only [oldRunRequest, Outcome.requested.injEq] at h <;>
    exact h.1 ▸ rfl

theorem runRequest_err (c : Client) (path : String) (opts : Options) (e : String) :
    resultOf (runRequest c path opts (.err e)) = some none
    ∧ stderrOf (runRequest c path opts (.err e)) = some [e] :=
  ⟨rfl, rfl⟩

theorem oldRunRequest_err (c : Client) (path : String) (opts : Options) (e : String) :
    resultOf (oldRunRequest c path opts (.err e)) = some none
    ∧ stderrOf (oldRunRequest c path opts (.err e)) = some [e] :=
  ⟨rfl, rfl⟩

theorem runRequest_ok (c : Client) (path : String) (opts : Options) (res : Value) :
    resultOf (runRequest c path opts (.ok res)) = some (some (resBody res))
    ∧ stderrOf (runRequest c path opts (.ok res)) = some [] :=
  ⟨rfl, rfl⟩

theorem oldRunRequest_ok (c : Client) (path : String) (opts : Options) (res : Value) :
    resultOf (oldRunRequest c path opts (.ok res)) = some (some res)
    ∧ stderrOf (oldRunRequest c path opts (.ok res)) = some [] :=
  ⟨rfl, rfl⟩

theorem runRequest_setLeague (c : Client) (l : String) (path : String)
    (opts : Options) (t : Transport) :
    runRequest (setLeague c l) path opts t
      = setRunUrl (runRequest c path opts t) (c.baseUrl ++ l ++ path) := by
  cases t <;> rfl

theorem headerLookup_single (name v : String) :
    headerLookup [(name, v)] name = some v := by
  simp [headerLookup]

theorem pathSuffix (base : String) (o : Options) :
    ∃ q, (if o.isEmpty then base else base ++ "?" ++ qsStringify o) = base ++ q := by
  by_cases he : o.isEmpty
  · refine ⟨"", ?_⟩
    rw [String.append_empty]
    simp [he]
  · refine ⟨"?" ++ qsStringify o, ?_⟩
    rw [← String.append_assoc]
    simp [he]

theorem gamelogsPath_ok_of_string {opts : Options} {s : String}
    (h : objGet opts "game" = .vstr s) :
    ∃ path, (seasonalPlayerGamelogsPath opts).2 = .ok path := by
  have hg : objGet (objDelete opts "season") "game" = .vstr s := by
    rw [objGet_objDelete_ne opts (by decide), h]
  simp only [seasonalPlayerGamelogsPath]
  rw [hg]
  exact ⟨_, rfl⟩

theorem gamelogsPath_fst (opts : Options) :
    (seasonalPlayerGamelogsPath opts).1 = objDelete opts "season" := by
  simp only [seasonalPlayerGamelogsPath]
  cases hcheck : checkIsStringMsg "\"options.game\" is a required parameter"
      (objGet (objDelete opts "season") "game") with
  | error e => rfl
  | ok s => rfl

theorem gamelogs_optionsAfter (c : Client) (opts : Options) (t : Transport) :
    (seasonalPlayerGamelogs c opts t).optionsAfter = objDelete opts "season" := by
  simp only [seasonalPlayerGamelogs]
  cases hp : (seasonalPlayerGamelogsPath opts).2 with
  | error e =>
    exact gamelogsPath_fst opts
  | ok path =>
    rw [runRequest_optionsAfter]
    exact gamelogsPath_fst opts

theorem string_game_exists {opts : Options}
    (h : isStringValue (objGet opts "game") = true) :
    ∃ s, objGet opts "game" = .vstr s := by
  cases hv : objGet opts "game" with
  | vstr s => exact ⟨s, rfl⟩
  | vnull => rw [hv] at h; simp [isStringValue] at h
  | vnum n => rw [hv] at h; simp [isStringValue] at h
  | vres st b => rw [hv] at h; simp [isStringValue] at h

/-! Claim theorems. -/

/-- C1: for every pair of string credentials, the auth header computed
at construction equals the string Basic followed by a space and the
base64 encoding of apiKey ++ colon ++ password, and this header is
attached as the Authorization header of every request the client
builds, for every operation of the current ApiBase and of MlbApi. -/
theorem c1_auth_header (k p : String) (c : Client)
    (h : ApiBase.new ⟨.vstr k, .vstr p⟩ = .ok c
      ∨ MlbApi.new ⟨.vstr k, .vstr p⟩ = .ok c) :
    c.authHeader = "Basic " ++ base64Encode (strBytes (k ++ ":" ++ p))
    ∧ (∀ method url, headerLookup (buildRequest c method url).headers "Authorization"
        = some c.authHeader)
    ∧ (∀ opts t req res log, (seasonGames c opts t).outcome = .requested req res log →
        headerLookup req.headers "Authorization"
          = some ("Basic " ++ base64Encode (strBytes (k ++ ":" ++ p))))
    ∧ (∀ today opts t req res log,
        (dailyGames c today opts t).outcome = .requested req res log →
        headerLookup req.headers "Authorization"
          = some ("Basic " ++ base64Encode (strBytes (k ++ ":" ++ p))))
    ∧ (∀ opts t req res log,
        (seasonalPlayerGamelogs c opts t).outcome = .requested req res log →
        headerLookup req.headers "Authorization"
          = some ("Basic " ++ base64Encode (strBytes (k ++ ":" ++ p)))) := by
  have hauth : c.authHeader = generateAuthHeader k p := by
    rcases h with h | h
    · have h' : (Except.ok
          (⟨generateAuthHeader k p, "https://api.mysportsfeeds.com/v2.1/pull", ""⟩ : Client)
          : Except String Client) = Except.ok c := h
      rw [← Except.ok.inj h']
    · have h' : (Except.ok
          (⟨generateAuthHeader k p, "https://api.mysportsfeeds.com/v2.1/pull", "/mlb"⟩ : Client)
          : Except String Client) = Except.ok c := h
      rw [← Except.ok.inj h']
  have hbasic : generateAuthHeader k p
      = "Basic " ++ base64Encode (strBytes (k ++ ":" ++ p)) := rfl
  refine ⟨hauth.trans hbasic, ?_, ?_, ?_, ?_⟩
  · intro method url
    exact headerLookup_single "Authorization" c.authHeader
  · intro opts t req res log hreq
    have := runRequest_headers c (seasonGamesPath opts).2 (seasonGamesPath opts).1
      t req res log hreq
    rw [this, hauth, hbasic]
    exact headerLookup_single _ _
  · intro today opts t req res log hreq
    have := runRequest_headers c (dailyGamesPath today opts).2
      (dailyGamesPath today opts).1 t req res log hreq
    rw [this, hauth, hbasic]
    exact headerLookup_single _ _
  · intro opts t req res log hreq
    simp only [seasonalPlayerGamelogs] at hreq
    rcases hp : (seasonalPlayerGamelogsPath opts).2 with e | path
    · rw [hp] at hreq
      simp at hreq
    · rw [hp] at hreq
      have := runRequest_headers c path (seasonalPlayerGamelogsPath opts).1
        t req res log hreq
      rw [this, hauth, hbasic]
      exact headerLookup_single _ _

/-- Witness for C1 at the concrete credentials key and pass. -/
theorem c1_auth_header_witness :
    apiDemoClient.authHeader = "Basic " ++ base64Encode (strBytes ("key" ++ ":" ++ "pass")) :=
  (c1_auth_header "key" "pass" apiDemoClient (Or.inl rfl)).1

/-- C6: constructing any of the client classes with a missing or
non-string apiKey or password errors at construction time (the
constructor embeddings take no Transport argument, so no network is
involved), and for every pair of string credentials construction
succeeds. -/
theorem c6_ctor_validation :
    (∀ o : CtorOptions,
      isStringValue o.apiKey = false ∨ isStringValue o.password = false →
        (∃ e, ApiBase.new o = .error e) ∧ (∃ e, MlbApi.new o = .error e)
        ∧ (∃ e, OldApiBase.new o = .error e))
    ∧ (∀ k p : String,
        (∃ c, ApiBase.new ⟨.vstr k, .vstr p⟩ = .ok c)
        ∧ (∃ c, MlbApi.new ⟨.vstr k, .vstr p⟩ = .ok c)
        ∧ (∃ c, OldApiBase.new ⟨.vstr k, .vstr p⟩ = .ok c)) := by
  constructor
  · rintro ⟨a, pw⟩ h
    cases a with
    | vstr s =>
      cases pw with
      | vstr s₂ => simp [isStringValue] at h
      | vnull => exact ⟨⟨_, rfl⟩, ⟨_, rfl⟩, ⟨_, rfl⟩⟩
      | vnum n => exact ⟨⟨_, rfl⟩, ⟨_, rfl⟩, ⟨_, rfl⟩⟩
      | vres st b => exact ⟨⟨_, rfl⟩, ⟨_, rfl⟩, ⟨_, rfl⟩⟩
    | vnull => exact ⟨⟨_, rfl⟩, ⟨_, rfl⟩, ⟨_, rfl⟩⟩
    | vnum n => exact ⟨⟨_, rfl⟩, ⟨_, rfl⟩, ⟨_, rfl⟩⟩
    | vres st b => exact ⟨⟨_, rfl⟩, ⟨_, rfl⟩, ⟨_, rfl⟩⟩
  · intro k p
    exact ⟨⟨_, rfl⟩, ⟨_, rfl⟩, ⟨_, rfl⟩⟩

/-- Witness for C6: a missing apiKey is rejected and concrete string
credentials are accepted. -/
theorem c6_ctor_validation_witness :
    ((∃ e, ApiBase.new ⟨.vnull, .vstr "pass"⟩ = .error e)
      ∧ (∃ e, MlbApi.new ⟨.vnull, .vstr "pass"⟩ = .error e)
      ∧ (∃ e, OldApiBase.new ⟨.vnull, .vstr "pass"⟩ = .error e))
    ∧ (∃ c, ApiBase.new ⟨.vstr "key", .vstr "pass"⟩ = .ok c) :=
  ⟨c6_ctor_validation.1 ⟨.vnull, .vstr "pass"⟩ (Or.inl rfl),
   (c6_ctor_validation.2 "key" "pass").1⟩

/-- C3: for every options object lacking a string-valued game key,
seasonalPlayerGamelogs throws the parameter error before building any
request: the outcome is paramError, no URL exists, the outcome is not a
requested one (so it is distinguishable from a null result), and the
whole run does not depend on the transport at all. -/
theorem c3_game_required (c : Client) (opts : Options) (t : Transport)
    (h : isStringValue (objGet opts "game") = false) :
    (seasonalPlayerGamelogs c opts t).outcome
        = .paramError "\"options.game\" is a required parameter"
    ∧ urlOf (seasonalPlayerGamelogs c opts t) = none
    ∧ (∀ req res log, (seasonalPlayerGamelogs c opts t).outcome ≠ .requested req res log)
    ∧ (∀ t', seasonalPlayerGamelogs c opts t = seasonalPlayerGamelogs c opts t') := by
  have hgame : objGet (objDelete opts "season") "game" = objGet opts "game" :=
    objGet_objDelete_ne opts (by decide)
  have hcheck : checkIsStringMsg "\"options.game\" is a required parameter"
      (objGet (objDelete opts "season") "game")
      = .error "\"options.game\" is a required parameter" := by
    rw [hgame]
    cases hv : objGet opts "game" with
    | vstr s => rw [hv] at h; simp [isStringValue] at h
    | vnull => rfl
    | vnum n => rfl
    | vres st b => rfl
  have hrun : ∀ t₀ : Transport, seasonalPlayerGamelogs c opts t₀
      = ⟨objDelete opts "season",
         .paramError "\"options.game\" is a required parameter"⟩ := by
    intro t₀
    simp only [seasonalPlayerGamelogs, seasonalPlayerGamelogsPath]
    rw [hcheck]
  refine ⟨by rw [hrun t], by rw [hrun t]; rfl, ?_, ?_⟩
  · intro req res log
    rw [hrun t]
    simp
  · intro t'
    rw [hrun t, hrun t']

/-- Witness for C3: with an empty options object the game check fails
with the parameter error. -/
theorem c3_game_required_witness :
    (seasonalPlayerGamelogs apiDemoClient [] (.err "boom")).outcome
      = .paramError "\"options.game\" is a required parameter" :=
  (c3_game_required apiDemoClient [] (.err "boom") rfl).1

/-- C4: with options holding exactly the game key with value
20190924-NYY-TB, the constructed path is
/current/player_gamelogs.json?game=20190924-NYY-TB, and the issued URL
is that path appended to the base URL and league path, for every client
and every transport. -/
theorem c4_concrete_gamelogs_path :
    (seasonalPlayerGamelogsPath [("game", .vstr "20190924-NYY-TB")]).2
        = .ok "/current/player_gamelogs.json?game=20190924-NYY-TB"
    ∧ (∀ (c : Client) (t : Transport),
        urlOf (seasonalPlayerGamelogs c [("game", .vstr "20190924-NYY-TB")] t)
          = some (c.baseUrl ++ c.leaguePath
              ++ "/current/player_gamelogs.json?game=20190924-NYY-TB")) := by
  refine ⟨rfl, ?_⟩
  intro c t
  cases t <;> rfl

/-- C5: when the season-selecting option of an operation is omitted the
constructed path places the token current in the season position, and
when the date option of dailyGames is omitted the path places the
current date formatted as YYYYMMDD in the date position. -/
theorem c5_omitted_defaults (today : Today) (opts : Options) :
    (hasKey opts "seasonName" = false →
      ∃ q, (seasonGamesPath opts).2 = "/current/games.json" ++ q)
    ∧ (hasKey opts "season" = false →
      ∃ d q, (dailyGamesPath today opts).2 = "/current/date/" ++ d ++ "/games.json" ++ q)
    ∧ (hasKey opts "date" = false →
      ∃ s q, (dailyGamesPath today opts).2
        = "/" ++ s ++ "/date/" ++ momentFormatYYYYMMDD today ++ "/games.json" ++ q)
    ∧ (hasKey opts "season" = false →
      ∀ path, (seasonalPlayerGamelogsPath opts).2 = .ok path →
        ∃ q, path = "/current/player_gamelogs.json" ++ q) := by
  refine ⟨?_, ?_, ?_, ?_⟩
  · intro h
    have h0 : objGet opts "seasonName" = .vnull := objGet_of_hasKey_false h
    simp only [seasonGamesPath, h0, jsOr, truthy, Bool.false_eq_true, if_false, jsToString]
    by_cases he : (objDelete opts "seasonName").isEmpty
    · refine ⟨"", ?_⟩
      rw [String.append_empty]
      simp [he]
    · refine ⟨"?" ++ qsStringify (objDelete opts "seasonName"), ?_⟩
      rw [← String.append_assoc]
      simp [he]
  · intro h
    have h0 : objGet opts "season" = .vnull := objGet_of_hasKey_false h
    simp only [dailyGamesPath, h0, jsOr, truthy, Bool.false_eq_true, if_false, jsToString]
    refine ⟨jsToString (jsOr (objGet (objDelete opts "season") "date")
      (.vstr (momentFormatYYYYMMDD today))), ?_⟩
    by_cases he : (objDelete (objDelete opts "season") "date").isEmpty
    · refine ⟨"", ?_⟩
      rw [String.append_empty]
      simp [he, jsOr, jsToString, truthy]
    · refine ⟨"?" ++ qsStringify (objDelete (objDelete opts "season") "date"), ?_⟩
      rw [← String.append_assoc]
      simp [he, jsOr, jsToString, truthy]
  · intro h
    have hne : objGet (objDelete opts "season") "date" = objGet opts "date" :=
      objGet_objDelete_ne opts (by decide)
    have h0 : objGet (objDelete opts "season") "date" = .vnull := by
      rw [hne]
      exact objGet_of_hasKey_false h
    simp only [dailyGamesPath, h0, jsOr, truthy, Bool.false_eq_true, if_false, jsToString]
    refine ⟨jsToString (jsOr (objGet opts "season") (.vstr "current")), ?_⟩
    by_cases he : (objDelete (objDelete opts "season") "date").isEmpty
    · refine ⟨"", ?_⟩
      rw [String.append_empty]
      simp [he, jsOr, jsToString, truthy]
    · refine ⟨"?" ++ qsStringify (objDelete (objDelete opts "season") "date"), ?_⟩
      rw [← String.append_assoc]
      simp [he, jsOr, jsToString, truthy]
  · intro h path hp
    have h0 : objGet opts "season" = .vnull := objGet_of_hasKey_false h
    simp only [seasonalPlayerGamelogsPath, h0, jsOr, truthy, Bool.false_eq_true,
      if_false, jsToString] at hp
    cases hc : checkIsStringMsg "\"options.game\" is a required parameter"
        (objGet (objDelete opts "season") "game") with
    | error e =>
      rw [hc] at hp
      simp at hp
    | ok s =>
      rw [hc] at hp
      simp only [Except.ok.injEq] at hp
      by_cases he : (objDelete opts "season").isEmpty
      · refine ⟨"", ?_⟩
        rw [String.append_empty, ← hp]
        simp [he]
      · refine ⟨"?" ++ qsStringify (objDelete opts "season"), ?_⟩
        rw [← String.append_assoc, ← hp]
        simp [he]

/-- Witness for C5: concrete options omitting seasonName, season and
date resolve to paths with current and the formatted date. -/
theorem c5_omitted_defaults_witness :
    (∃ q, (seasonGamesPath [("game", Value.vstr "g")]).2 = "/current/games.json" ++ q)
    ∧ (∃ s q, (dailyGamesPath ⟨2026, 10, 12⟩ [("game", Value.vstr "g")]).2
        = "/" ++ s ++ "/date/" ++ momentFormatYYYYMMDD ⟨2026, 10, 12⟩ ++ "/games.json" ++ q) :=
  ⟨(c5_omitted_defaults ⟨2026, 10, 12⟩ [("game", Value.vstr "g")]).1 (by decide),
   (c5_omitted_defaults ⟨2026, 10, 12⟩ [("game", Value.vstr "g")]).2.2.1 (by decide)⟩

/-- C2 counterexample: at a concrete success response, fullGameSchedule
of the older ApiBase (and likewise dailyGameSchedule) returns the whole
response object res, not the parsed body res.body: the result differs
from the body of the response. -/
theorem c2_counterexample :
    OldApiBase.new ⟨.vstr "k", .vstr "p"⟩ = .ok oldDemoClient
    ∧ resultOf (fullGameSchedule oldDemoClient [] (.ok (.vres 200 (.vstr "payload"))))
        = some (some (.vres 200 (.vstr "payload")))
    ∧ resultOf (fullGameSchedule oldDemoClient [] (.ok (.vres 200 (.vstr "payload"))))
        ≠ some (some (resBody (.vres 200 (.vstr "payload"))))
    ∧ resultOf (dailyGameSchedule oldDemoClient ⟨2026, 10, 12⟩ []
          (.ok (.vres 200 (.vstr "payload"))))
        ≠ some (some (resBody (.vres 200 (.vstr "payload")))) := by
  refine ⟨rfl, rfl, ?_, ?_⟩ <;> decide

/-- C2 amended: on transport success the three operations of the
current ApiBase return the parsed body of the response, while
fullGameSchedule and dailyGameSchedule of the older ApiBase return the
raw response object itself. -/
theorem c2_success_returns (c : Client) (today : Today) (opts : Options) (res : Value) :
    resultOf (seasonGames c opts (.ok res)) = some (some (resBody res))
    ∧ resultOf (dailyGames c today opts (.ok res)) = some (some (resBody res))
    ∧ (isStringValue (objGet opts "game") = true →
        resultOf (seasonalPlayerGamelogs c opts (.ok res)) = some (some (resBody res)))
    ∧ resultOf (fullGameSchedule c opts (.ok res)) = some (some res)
    ∧ resultOf (dailyGameSchedule c today opts (.ok res)) = some (some res) := by
  refine ⟨rfl, rfl, ?_, rfl, rfl⟩
  intro hgs
  obtain ⟨s, hs⟩ := string_game_exists hgs
  obtain ⟨path, hp⟩ := gamelogsPath_ok_of_string hs
  have hrun : seasonalPlayerGamelogs c opts (.ok res)
      = runRequest c path (seasonalPlayerGamelogsPath opts).1 (.ok res) := by
    simp only [seasonalPlayerGamelogs]
    rw [hp]
  rw [hrun]
  exact (runRequest_ok c path (seasonalPlayerGamelogsPath opts).1 res).1

/-- Witness for the amended C2 at concrete inputs. -/
theorem c2_success_returns_witness :
    resultOf (seasonalPlayerGamelogs apiDemoClient [("game", Value.vstr "g")]
        (.ok (.vres 200 (.vstr "payload"))))
      = some (some (resBody (.vres 200 (.vstr "payload")))) :=
  (c2_success_returns apiDemoClient ⟨2026, 10, 12⟩ [("game", Value.vstr "g")]
    (.vres 200 (.vstr "payload"))).2.2.1 rfl

/-- C7 counterexample: the endpoint path built by dailyGameSchedule of
the older ApiBase does not begin with a slash, so with the /mlb league
path the issued URL runs the league path directly into the season token
(pull/mlbcurrent/...); also, the fullGameSchedule endpoint, which does
begin with a slash, matches none of the three endpoint templates the
claim lists. -/
theorem c7_counterexample :
    dailyGameSchedulePath ⟨2026, 10, 12⟩ []
        = "current/daily_game_schedule.json?forDate=20261012"
    ∧ headCharOf (dailyGameSchedulePath ⟨2026, 10, 12⟩ []) ≠ some '/'
    ∧ urlOf (dailyGameSchedule mlbOldDemoClient ⟨2026, 10, 12⟩ [] (.err "boom"))
        = some "https://api.mysportsfeeds.com/v1.2/pull/mlbcurrent/daily_game_schedule.json?forDate=20261012"
    ∧ fullGameSchedulePath [] = "/current/full_game_schedule.json" := by
  refine ⟨rfl, ?_, ?_, rfl⟩ <;> decide

/-- C7 amended: every operation issues a GET whose URL is the base URL,
then the league path, then the endpoint path. The endpoint paths of the
three current ApiBase operations begin with a slash and have the shapes
season slash games.json, season slash date slash date slash games.json
and season slash player_gamelogs.json, each followed by an optional
query suffix; the older fullGameSchedule endpoint begins with a slash,
while the older dailyGameSchedule endpoint starts directly with the
season token, with no leading slash. -/
theorem c7_url_shapes (c : Client) (today : Today) (opts : Options) (t : Transport) :
    (∃ s q, (seasonGamesPath opts).2 = "/" ++ s ++ "/games.json" ++ q)
    ∧ urlOf (seasonGames c opts t) = some (c.baseUrl ++ c.leaguePath ++ (seasonGamesPath opts).2)
    ∧ methodOf (seasonGames c opts t) = some "GET"
    ∧ (∃ s d q, (dailyGamesPath today opts).2 = "/" ++ s ++ "/date/" ++ d ++ "/games.json" ++ q)
    ∧ urlOf (dailyGames c today opts t)
        = some (c.baseUrl ++ c.leaguePath ++ (dailyGamesPath today opts).2)
    ∧ methodOf (dailyGames c today opts t) = some "GET"
    ∧ (∀ path, (seasonalPlayerGamelogsPath opts).2 = .ok path →
        (∃ s q, path = "/" ++ s ++ "/player_gamelogs.json" ++ q)
        ∧ urlOf (seasonalPlayerGamelogs c opts t) = some (c.baseUrl ++ c.leaguePath ++ path)
        ∧ methodOf (seasonalPlayerGamelogs c opts t) = some "GET")
    ∧ (∃ s, fullGameSchedulePath opts = "/" ++ s ++ "/full_game_schedule.json")
    ∧ urlOf (fullGameSchedule c opts t)
        = some (c.baseUrl ++ c.leaguePath ++ fullGameSchedulePath opts)
    ∧ methodOf (fullGameSchedule c opts t) = some "GET"
    ∧ (∃ s d, dailyGameSchedulePath today opts
        = s ++ "/daily_game_schedule.json?forDate=" ++ d)
    ∧ urlOf (dailyGameSchedule c today opts t)
        = some (c.baseUrl ++ c.leaguePath ++ dailyGameSchedulePath today opts)
    ∧ methodOf (dailyGameSchedule c today opts t) = some "GET" := by
  refine ⟨?_, ?_, ?_, ?_, ?_, ?_, ?_, ?_, ?_, ?_, ?_, ?_, ?_⟩
  · refine ⟨jsToString (jsOr (objGet opts "seasonName") (.vstr "current")), ?_⟩
    simp only [seasonGamesPath]
    exact pathSuffix _ _
  · exact runRequest_urlOf c (seasonGamesPath opts).2 (seasonGamesPath opts).1 t
  · exact runRequest_methodOf c (seasonGamesPath opts).2 (seasonGamesPath opts).1 t
  · refine ⟨jsToString (jsOr (objGet opts "season") (.vstr "current")),
      jsToString (jsOr (objGet (objDelete opts "season") "date")
        (.vstr (momentFormatYYYYMMDD today))), ?_⟩
    simp only [dailyGamesPath]
    exact pathSuffix _ _
  · exact runRequest_urlOf c (dailyGamesPath today opts).2 (dailyGamesPath today opts).1 t
  · exact runRequest_methodOf c (dailyGamesPath today opts).2 (dailyGamesPath today opts).1 t
  · intro path hp
    have hrun : seasonalPlayerGamelogs c opts t
        = runRequest c path (seasonalPlayerGamelogsPath opts).1 t := by
      simp only [seasonalPlayerGamelogs]
      rw [hp]
    refine ⟨?_, ?_, ?_⟩
    · refine ⟨jsToString (jsOr (objGet opts "season") (.vstr "current")), ?_⟩
      simp only [seasonalPlayerGamelogsPath] at hp
      cases hcheck : checkIsStringMsg "\"options.game\" is a required parameter"
          (objGet (objDelete opts "season") "game") with
      | error e =>
        rw [hcheck] at hp
        simp at hp
      | ok s₀ =>
        rw [hcheck] at hp
        simp only [Except.ok.injEq] at hp
        rw [← hp]
        exact pathSuffix _ _
    · rw [hrun]
      exact runRequest_urlOf c path (seasonalPlayerGamelogsPath opts).1 t
    · rw [hrun]
      exact runRequest_methodOf c path (seasonalPlayerGamelogsPath opts).1 t
  · exact ⟨jsToString (jsOr (objGet opts "seasonName") (.vstr "current")), rfl⟩
  · exact oldRunRequest_urlOf c (fullGameSchedulePath opts) opts t
  · exact oldRunRequest_methodOf c (fullGameSchedulePath opts) opts t
  · exact ⟨jsToString (jsOr (objGet opts "seasonName") (.vstr "current")),
      jsToString (jsOr (objGet opts "forDate") (.vstr (momentFormatYYYYMMDD today))), rfl⟩
  · exact oldRunRequest_urlOf c (dailyGameSchedulePath today opts) opts t
  · exact oldRunRequest_methodOf c (dailyGameSchedulePath today opts) opts t

/-- Witness for the amended C7 at concrete inputs, discharging the
gamelogs path hypothesis. -/
theorem c7_url_shapes_witness :
    (∃ s q, "/current/player_gamelogs.json?game=g" = "/" ++ s ++ "/player_gamelogs.json" ++ q)
    ∧ urlOf (seasonalPlayerGamelogs apiDemoClient [("game", Value.vstr "g")] (.err "boom"))
        = some (apiDemoClient.baseUrl ++ apiDemoClient.leaguePath
            ++ "/current/player_gamelogs.json?game=g")
    ∧ methodOf (seasonalPlayerGamelogs apiDemoClient [("game", Value.vstr "g")] (.err "boom"))
        = some "GET" :=
  (c7_url_shapes apiDemoClient ⟨2026, 10, 12⟩ [("game", Value.vstr "g")]
      (.err "boom")).2.2.2.2.2.2.1
    "/current/player_gamelogs.json?game=g" rfl

/-- C8: when the transport rejects, every operation returns null (a
some none result: the request phase was reached and null came back)
instead of raising, and the caught error is the single stderr log line;
moreover, once an operation reaches the request phase it always
completes with a returned value for every transport, so nothing is
raised after the request is issued. -/
theorem c8_transport_error_null (c : Client) (today : Today) (opts : Options) (e : String) :
    resultOf (seasonGames c opts (.err e)) = some none
    ∧ stderrOf (seasonGames c opts (.err e)) = some [e]
    ∧ resultOf (dailyGames c today opts (.err e)) = some none
    ∧ stderrOf (dailyGames c today opts (.err e)) = some [e]
    ∧ (isStringValue (objGet opts "game") = true →
        resultOf (seasonalPlayerGamelogs c opts (.err e)) = some none
        ∧ stderrOf (seasonalPlayerGamelogs c opts (.err e)) = some [e])
    ∧ resultOf (fullGameSchedule c opts (.err e)) = some none
    ∧ stderrOf (fullGameSchedule c opts (.err e)) = some [e]
    ∧ resultOf (dailyGameSchedule c today opts (.err e)) = some none
    ∧ stderrOf (dailyGameSchedule c today opts (.err e)) = some [e]
    ∧ (∀ t, ∃ r, resultOf (seasonGames c opts t) = some r)
    ∧ (∀ t, ∃ r, resultOf (dailyGames c today opts t) = some r)
    ∧ (isStringValue (objGet opts "game") = true →
        ∀ t, ∃ r, resultOf (seasonalPlayerGamelogs c opts t) = some r) := by
  refine ⟨rfl, rfl, rfl, rfl, ?_, rfl, rfl, rfl, rfl, ?_, ?_, ?_⟩
  · intro hgs
    obtain ⟨s, hs⟩ := string_game_exists hgs
    obtain ⟨path, hp⟩ := gamelogsPath_ok_of_string hs
    have hrun : seasonalPlayerGamelogs c opts (.err e)
        = runRequest c path (seasonalPlayerGamelogsPath opts).1 (.err e) := by
      simp only [seasonalPlayerGamelogs]
      rw [hp]
    rw [hrun]
    exact runRequest_err c path (seasonalPlayerGamelogsPath opts).1 e
  · intro t
    cases t <;> exact ⟨_, rfl⟩
  · intro t
    cases t <;> exact ⟨_, rfl⟩
  · intro hgs t
    obtain ⟨s, hs⟩ := string_game_exists hgs
    obtain ⟨path, hp⟩ := gamelogsPath_ok_of_string hs
    have hrun : seasonalPlayerGamelogs c opts t
        = runRequest c path (seasonalPlayerGamelogsPath opts).1 t := by
      simp only [seasonalPlayerGamelogs]
      rw [hp]
    rw [hrun]
    cases t <;> exact ⟨_, rfl⟩

/-- Witness for C8 at concrete inputs, discharging the game string
hypothesis. -/
theorem c8_transport_error_null_witness :
    resultOf (seasonalPlayerGamelogs apiDemoClient [("game", Value.vstr "g")] (.err "boom"))
        = some none
    ∧ stderrOf (seasonalPlayerGamelogs apiDemoClient [("game", Value.vstr "g")] (.err "boom"))
        = some ["boom"] :=
  (c8_transport_error_null apiDemoClient ⟨2026, 10, 12⟩
    [("game", Value.vstr "g")] "boom").2.2.2.2.1 rfl

/-- C9: the MlbApi constructor is the ApiBase constructor followed by
setting the league path to /mlb; a client built by ApiBase has an empty
league path; and every request operation on the /mlb variant of a
client produces exactly the same run as on the client itself except
that the request URL carries /mlb between the base URL and the endpoint
path, so validation, defaults, results, logging and the mutated options
are unchanged. -/
theorem c9_mlb_league_substitution :
    (∀ o : CtorOptions, MlbApi.new o = (ApiBase.new o).map (fun c => setLeague c "/mlb"))
    ∧ (∀ o c, ApiBase.new o = .ok c → c.leaguePath = "")
    ∧ (∀ (c : Client) (opts : Options) (t : Transport),
        seasonGames (setLeague c "/mlb") opts t
          = setRunUrl (seasonGames c opts t) (c.baseUrl ++ "/mlb" ++ (seasonGamesPath opts).2))
    ∧ (∀ (c : Client) (opts : Options) (t : Transport),
        urlOf (seasonGames c opts t)
          = some (c.baseUrl ++ c.leaguePath ++ (seasonGamesPath opts).2))
    ∧ (∀ (c : Client) (today : Today) (opts : Options) (t : Transport),
        dailyGames (setLeague c "/mlb") today opts t
          = setRunUrl (dailyGames c today opts t)
              (c.baseUrl ++ "/mlb" ++ (dailyGamesPath today opts).2))
    ∧ (∀ (c : Client) (today : Today) (opts : Options) (t : Transport),
        urlOf (dailyGames c today opts t)
          = some (c.baseUrl ++ c.leaguePath ++ (dailyGamesPath today opts).2))
    ∧ (∀ (c : Client) (opts : Options) (t : Transport) (path : String),
        (seasonalPlayerGamelogsPath opts).2 = .ok path →
          seasonalPlayerGamelogs (setLeague c "/mlb") opts t
            = setRunUrl (seasonalPlayerGamelogs c opts t) (c.baseUrl ++ "/mlb" ++ path))
    ∧ (∀ (c : Client) (opts : Options) (t : Transport) (e : String),
        (seasonalPlayerGamelogsPath opts).2 = .error e →
          seasonalPlayerGamelogs (setLeague c "/mlb") opts t
            = seasonalPlayerGamelogs c opts t) := by
  refine ⟨?_, ?_, ?_, ?_, ?_, ?_, ?_, ?_⟩
  · intro o
    rfl
  · intro o c h
    cases ha : checkIsString o.apiKey with
    | error e =>
      simp only [ApiBase.new, ha] at h
      exact Except.noConfusion h
    | ok apiKey =>
      cases hp : checkIsString o.password with
      | error e =>
        simp only [ApiBase.new, ha, hp] at h
        exact Except.noConfusion h
      | ok password =>
        simp only [ApiBase.new, ha, hp, Except.ok.injEq] at h
        rw [← h]
  · intro c opts t
    exact runRequest_setLeague c "/mlb" (seasonGamesPath opts).2 (seasonGamesPath opts).1 t
  · intro c opts t
    exact runRequest_urlOf c (seasonGamesPath opts).2 (seasonGamesPath opts).1 t
  · intro c today opts t
    exact runRequest_setLeague c "/mlb" (dailyGamesPath today opts).2
      (dailyGamesPath today opts).1 t
  · intro c today opts t
    exact runRequest_urlOf c (dailyGamesPath today opts).2 (dailyGamesPath today opts).1 t
  · intro c opts t path hp
    have h₁ : seasonalPlayerGamelogs (setLeague c "/mlb") opts t
        = runRequest (setLeague c "/mlb") path (seasonalPlayerGamelogsPath opts).1 t := by
      simp only [seasonalPlayerGamelogs]
      rw [hp]
    have h₂ : seasonalPlayerGamelogs c opts t
        = runRequest c path (seasonalPlayerGamelogsPath opts).1 t := by
      simp only [seasonalPlayerGamelogs]
      rw [hp]
    rw [h₁, h₂]
    exact runRequest_setLeague c "/mlb" path (seasonalPlayerGamelogsPath opts).1 t
  · intro c opts t e hp
    have h₁ : seasonalPlayerGamelogs (setLeague c "/mlb") opts t
        = ⟨(seasonalPlayerGamelogsPath opts).1, .paramError e⟩ := by
      simp only [seasonalPlayerGamelogs]
      rw [hp]
    have h₂ : seasonalPlayerGamelogs c opts t
        = ⟨(seasonalPlayerGamelogsPath opts).1, .paramError e⟩ := by
      simp only [seasonalPlayerGamelogs]
      rw [hp]
    rw [h₁, h₂]

/-- Witness for C9 at concrete inputs, discharging the gamelogs path
hypothesis. -/
theorem c9_mlb_league_substitution_witness :
    seasonalPlayerGamelogs (setLeague apiDemoClient "/mlb")
        [("game", Value.vstr "g")] (.err "boom")
      = setRunUrl (seasonalPlayerGamelogs apiDemoClient [("game", Value.vstr "g")] (.err "boom"))
          (apiDemoClient.baseUrl ++ "/mlb" ++ "/current/player_gamelogs.json?game=g") :=
  c9_mlb_league_substitution.2.2.2.2.2.2.1 apiDemoClient [("game", Value.vstr "g")]
    (.err "boom") "/current/player_gamelogs.json?game=g" rfl

/-- C10: each current ApiBase operation mutates the caller options
object: seasonGames deletes the seasonName key, dailyGames deletes the
season and date keys, and seasonalPlayerGamelogs deletes the season key
only; the deleted keys are absent afterwards and every other key keeps
its presence and value, in particular the game key. -/
theorem c10_options_mutation (c : Client) (today : Today) (opts : Options) (t : Transport) :
    ((seasonGames c opts t).optionsAfter = objDelete opts "seasonName"
      ∧ hasKey (seasonGames c opts t).optionsAfter "seasonName" = false
      ∧ (∀ k, k ≠ "seasonName" →
          objGet (seasonGames c opts t).optionsAfter k = objGet opts k
          ∧ hasKey (seasonGames c opts t).optionsAfter k = hasKey opts k))
    ∧ ((dailyGames c today opts t).optionsAfter = objDelete (objDelete opts "season") "date"
      ∧ hasKey (dailyGames c today opts t).optionsAfter "season" = false
      ∧ hasKey (dailyGames c today opts t).optionsAfter "date" = false
      ∧ (∀ k, k ≠ "season" → k ≠ "date" →
          objGet (dailyGames c today opts t).optionsAfter k = objGet opts k
          ∧ hasKey (dailyGames c today opts t).optionsAfter k = hasKey opts k))
    ∧ ((seasonalPlayerGamelogs c opts t).optionsAfter = objDelete opts "season"
      ∧ hasKey (seasonalPlayerGamelogs c opts t).optionsAfter "season" = false
      ∧ (∀ k, k ≠ "season" →
          objGet (seasonalPlayerGamelogs c opts t).optionsAfter k = objGet opts k
          ∧ hasKey (seasonalPlayerGamelogs c opts t).optionsAfter k = hasKey opts k)) := by
  have hsg : (seasonGames c opts t).optionsAfter = objDelete opts "seasonName" :=
    runRequest_optionsAfter c (seasonGamesPath opts).2 (seasonGamesPath opts).1 t
  have hdg : (dailyGames c today opts t).optionsAfter
      = objDelete (objDelete opts "season") "date" :=
    runRequest_optionsAfter c (dailyGamesPath today opts).2 (dailyGamesPath today opts).1 t
  have hpg : (seasonalPlayerGamelogs c opts t).optionsAfter = objDelete opts "season" :=
    gamelogs_optionsAfter c opts t
  refine ⟨⟨hsg, ?_, ?_⟩, ⟨hdg, ?_, ?_, ?_⟩, ⟨hpg, ?_, ?_⟩⟩
  · rw [hsg]
    exact hasKey_objDelete_self opts "seasonName"
  · intro k hk
    rw [hsg]
    exact ⟨objGet_objDelete_ne opts hk, hasKey_objDelete_ne opts hk⟩
  · rw [hdg, hasKey_objDelete_ne (objDelete opts "season") (by decide)]
    exact hasKey_objDelete_self opts "season"
  · rw [hdg]
    exact hasKey_objDelete_self (objDelete opts "season") "date"
  · intro k hks hkd
    rw [hdg]
    constructor
    · rw [objGet_objDelete_ne (objDelete opts "season") hkd]
      exact objGet_objDelete_ne opts hks
    · rw [hasKey_objDelete_ne (objDelete opts "season") hkd]
      exact hasKey_objDelete_ne opts hks
  · rw [hpg]
    exact hasKey_objDelete_self opts "season"
  · intro k hk
    rw [hpg]
    exact ⟨objGet_objDelete_ne opts hk, hasKey_objDelete_ne opts hk⟩

/-- Witness for C10 at concrete inputs: the game key survives the
gamelogs call, the seasonName key is gone after seasonGames. -/
theorem c10_options_mutation_witness :
    (hasKey (seasonGames apiDemoClient
        [("seasonName", Value.vstr "2019"), ("x", Value.vnum 1)] (.err "e")).optionsAfter
      "seasonName" = false)
    ∧ (objGet (seasonalPlayerGamelogs apiDemoClient
          [("season", Value.vstr "2019"), ("game", Value.vstr "g")] (.err "e")).optionsAfter
        "game"
      = objGet [("season", Value.vstr "2019"), ("game", Value.vstr "g")] "game") :=
  ⟨(c10_options_mutation apiDemoClient ⟨2026, 10, 12⟩
      [("seasonName", Value.vstr "2019"), ("x", Value.vnum 1)] (.err "e")).1.2.1,
   ((c10_options_mutation apiDemoClient ⟨2026, 10, 12⟩
      [("season", Value.vstr "2019"), ("game", Value.vstr "g")] (.err "e")).2.2.2.2
      "game" (by decide)).1⟩

end Elo

